/-
  Verification of the deadline scheduling class (SCHED_DEADLINE, EDF + CBS)
  against its natural-language specification.

  The definitions below are a shallow embedding of kernel/sched_dl.c:
  unsigned 64-bit quantities are Nat taken modulo 2^64 where wrap matters,
  signed 64-bit quantities are Int reduced into the s64 range where the C
  code performs wrapping arithmetic, and the mutable kernel objects become
  explicit state records threaded through the functions.
-/
import Mathlib

namespace SchedDl

/-! ## Machine arithmetic (u64 / s64) -/

/-- Reduce a natural number modulo 2^64, i.e. the value of a C u64. -/
def wrap (x : Nat) : Nat := x % 18446744073709551616

/-- u64 subtraction `a - b` with wraparound. -/
def u64sub (a b : Nat) : Nat :=
  (a + (18446744073709551616 - b % 18446744073709551616)) % 18446744073709551616

/-- Reinterpret a u64 bit pattern as a signed 64-bit value. -/
def s64 (x : Nat) : Int :=
  if x % 18446744073709551616 < 9223372036854775808 then
    ((x % 18446744073709551616 : Nat) : Int)
  else
    ((x % 18446744073709551616 : Nat) : Int) - 18446744073709551616

/-- Reduce an integer into the s64 range, i.e. the effect of C signed-64
wraparound arithmetic. -/
def s64wrap (x : Int) : Int :=
  (x + 9223372036854775808) % 18446744073709551616 - 9223372036854775808

/-- Convert an s64 value to its u64 bit pattern (the C conversion applied
when a signed operand enters unsigned arithmetic). -/
def intToU64 (x : Int) : Nat := (x % 18446744073709551616).toNat

/-- dl_time_before from sched_dl.c: wrap-safe comparison of two u64
monotonic times, `(s64)(a - b) < 0`. -/
def dl_time_before (a b : Nat) : Bool := decide (s64 (u64sub a b) < 0)

/-! Basic facts about the machine arithmetic. -/

theorem wrap_lt (x : Nat) : wrap x < 18446744073709551616 := by
  unfold wrap; omega

theorem wrap_add_left (x y : Nat) : wrap (wrap x + y) = wrap (x + y) := by
  unfold wrap; omega

theorem s64wrap_eq_self (x : Int) (h1 : -9223372036854775808 ≤ x)
    (h2 : x < 9223372036854775808) : s64wrap x = x := by
  unfold s64wrap; omega

/-- For u64 values whose true difference lies inside the s64 half-range,
the wrap-safe comparison agrees with the natural order. -/
theorem dl_time_before_eq_lt (a b : Nat)
    (hb : b < 18446744073709551616)
    (hd : (a : Int) - b < 9223372036854775808)
    (hd2 : (b : Int) - a ≤ 9223372036854775808) :
    dl_time_before a b = decide (a < b) := by
  unfold dl_time_before u64sub s64
  rcases Nat.lt_or_ge a b with h | h
  · have hba : b - a ≤ 9223372036854775808 := by omega
    have : (a + (18446744073709551616 - b % 18446744073709551616)) %
        18446744073709551616 = 18446744073709551616 - (b - a) := by omega
    rw [this]
    have h2 : (18446744073709551616 - (b - a)) % 18446744073709551616 =
        18446744073709551616 - (b - a) := by omega
    rw [h2]
    have h3 : ¬ (18446744073709551616 - (b - a) < 9223372036854775808) := by
      omega
    simp [h3]
    try omega
  · have : (a + (18446744073709551616 - b % 18446744073709551616)) %
        18446744073709551616 = a - b := by omega
    rw [this]
    have h2 : (a - b) % 18446744073709551616 = a - b := by omega
    rw [h2]
    have h3 : a - b < 9223372036854775808 := by omega
    simp [h3]
    omega

/-- Advancing a u64 clock by less than the half-range never lands
"before" the clock. -/
theorem dl_time_before_add_small (clock d : Nat)
    (hd : d < 9223372036854775808) :
    dl_time_before (wrap (clock + d)) clock = false := by
  unfold dl_time_before wrap u64sub s64
  have h1 : ((clock + d) % 18446744073709551616 +
      (18446744073709551616 - clock % 18446744073709551616)) %
      18446744073709551616 = d := by omega
  rw [h1]
  have h2 : d % 18446744073709551616 = d := by omega
  simp [h2]
  omega

/-! ## The deadline entity (struct sched_dl_entity)

The flags bitset is unfolded into one Bool per flag bit (SF_HEAD,
SF_BWRECL_DL, SF_BWRECL_RT, SF_BWRECL_NR). -/

structure sched_dl_entity where
  dl_runtime : Nat
  dl_deadline : Nat
  dl_period : Nat
  runtime : Int
  deadline : Nat
  sf_head : Bool
  sf_bwrecl_dl : Bool
  sf_bwrecl_rt : Bool
  sf_bwrecl_nr : Bool
  dl_new : Bool
  dl_throttled : Bool
  nr_cpus_allowed : Nat
deriving DecidableEq, Repr

/-- dl_entity_preempt from sched_dl.c:
`a->flags & SF_HEAD || (!(b->flags & SF_HEAD) && dl_time_before(a->deadline, b->deadline))`. -/
def dl_entity_preempt (a b : sched_dl_entity) : Bool :=
  a.sf_head || (!b.sf_head && dl_time_before a.deadline b.deadline)

/-- dl_entity_overflow from sched_dl.c:
`left = pi_se->dl_deadline * dl_se->runtime;`
`right = (dl_se->deadline - t) * pi_se->dl_runtime;`
`return dl_time_before(right, left);`
with u64 multiplications (the s64 runtime is converted to u64). -/
def dl_entity_overflow (dl_se pi_se : sched_dl_entity) (t : Nat) : Bool :=
  let left := wrap (pi_se.dl_deadline * intToU64 dl_se.runtime)
  let right := wrap (u64sub dl_se.deadline t * pi_se.dl_runtime)
  dl_time_before right left

/-- setup_new_dl_entity from sched_dl.c (clock is rq->clock). -/
def setup_new_dl_entity (dl_se pi_se : sched_dl_entity) (clock : Nat) :
    sched_dl_entity :=
  { dl_se with
    deadline := wrap (clock + pi_se.dl_deadline)
    runtime := (pi_se.dl_runtime : Int)
    dl_new := false }

/-- The while loop of replenish_dl_entity:
`while (dl_se->runtime <= 0) { deadline += dl_period; runtime += dl_runtime; }`
expressed with an explicit iteration bound.  The bound (replenish_fuel)
is large enough that it is never reached whenever 0 < dl_runtime < 2^63,
which is exactly the condition under which the C loop terminates.
The u64 deadline wraps; the s64 runtime addition wraps through s64wrap
(the C `s64 += u64` is modular). -/
def replenish_go (dl_period dl_runtime : Nat) :
    Nat → Nat → Int → Nat × Int
  | 0, deadline, runtime => (deadline, runtime)
  | fuel + 1, deadline, runtime =>
    if runtime ≤ 0 then
      replenish_go dl_period dl_runtime fuel (wrap (deadline + dl_period))
        (s64wrap (runtime + (dl_runtime : Int)))
    else (deadline, runtime)

/-- Iteration bound for the replenishment loop: with dl_runtime ≥ 1 the
runtime rises by at least 1 per iteration, so (1 - runtime) iterations
always suffice. -/
def replenish_fuel (runtime : Int) : Nat := (1 - runtime).toNat

/-- replenish_dl_entity from sched_dl.c: run the replenishment loop, then
if the deadline is still in the past, warn and reset to a fresh instance. -/
def replenish_dl_entity (dl_se pi_se : sched_dl_entity) (clock : Nat) :
    sched_dl_entity :=
  let p := replenish_go pi_se.dl_period pi_se.dl_runtime
    (replenish_fuel dl_se.runtime) dl_se.deadline dl_se.runtime
  let dl_se1 := { dl_se with deadline := p.1, runtime := p.2 }
  if dl_time_before dl_se1.deadline clock then
    { dl_se1 with
      deadline := wrap (clock + pi_se.dl_deadline)
      runtime := (pi_se.dl_runtime : Int) }
  else dl_se1

/-- update_dl_entity from sched_dl.c. -/
def update_dl_entity (dl_se pi_se : sched_dl_entity) (clock : Nat) :
    sched_dl_entity :=
  if dl_se.dl_new then setup_new_dl_entity dl_se pi_se clock
  else if dl_time_before dl_se.deadline clock ||
      dl_entity_overflow dl_se pi_se clock then
    { dl_se with
      deadline := wrap (clock + pi_se.dl_deadline)
      runtime := (pi_se.dl_runtime : Int) }
  else dl_se

/-- The parameter update performed by enqueue_dl_entity (sched_dl.c):
`if (!dl_se->dl_new && flags & ENQUEUE_REPLENISH) replenish_dl_entity(...)
 else update_dl_entity(...)`.
The ENQUEUE_REPLENISH bit of flags is the Bool `replenish`. -/
def enqueue_dl_entity_update (dl_se pi_se : sched_dl_entity)
    (replenish : Bool) (clock : Nat) : sched_dl_entity :=
  if !dl_se.dl_new && replenish then replenish_dl_entity dl_se pi_se clock
  else update_dl_entity dl_se pi_se clock

/-! ## Per-CPU deadline runqueue state and dispatch hooks

The two rb-trees are modelled by their in-order sequences; a tree node is
identified by the entity value it holds at call time.  Statistics fields
(schedstats, cycle counters) are omitted: the spec declares them
non-influential on scheduling decisions. -/

structure RqState where
  tree : List sched_dl_entity
  pushable : List sched_dl_entity
  dl_nr_running : Nat
deriving DecidableEq, Repr

/-- rb-tree insertion of __enqueue_dl_entity, on the in-order sequence:
descend left exactly when `dl_entity_preempt(dl_se, entry)`, so the new
entity lands before the first entry it preempts. -/
def dl_tree_insert (dl_se : sched_dl_entity) :
    List sched_dl_entity → List sched_dl_entity
  | [] => [dl_se]
  | e :: rest =>
    if dl_entity_preempt dl_se e then dl_se :: e :: rest
    else e :: dl_tree_insert dl_se rest

/-- rb-tree insertion of enqueue_pushable_dl_task, on the in-order
sequence: descend left exactly when `!dl_entity_preempt(entry, p)`. -/
def pushable_tree_insert (p : sched_dl_entity) :
    List sched_dl_entity → List sched_dl_entity
  | [] => [p]
  | e :: rest =>
    if !dl_entity_preempt e p then p :: e :: rest
    else e :: pushable_tree_insert p rest

/-- dl_runtime_exceeded from sched_dl.c.  Returns the decision together
with the updated entity (the deadline-miss path charges the overrun to
the next instance).  The statistics updates are omitted. -/
def dl_runtime_exceeded (clock : Nat) (dl_se : sched_dl_entity) :
    Bool × sched_dl_entity :=
  let dmiss := dl_time_before dl_se.deadline clock
  let rorun := decide (dl_se.runtime ≤ 0)
  if dl_se.sf_head || (!rorun && !dmiss) then (false, dl_se)
  else
    let dl_se1 :=
      if dmiss then
        { dl_se with
          runtime := s64wrap ((if rorun then dl_se.runtime else 0) -
            (u64sub clock dl_se.deadline : Int)) }
      else dl_se
    (true, dl_se1)

/-- start_dl_timer from sched_dl.c: returns 0 immediately when boosted or
SF_BWRECL_DL; otherwise the outcome depends on the hrtimer subsystem
(expiry in the past, timer activation), abstracted by `timer_ok`. -/
def start_dl_timer (dl_se : sched_dl_entity) (boosted timer_ok : Bool) :
    Bool :=
  if boosted || dl_se.sf_bwrecl_dl then false else timer_ok

/-- throttle_curr_dl from sched_dl.c (the BWRECL_RT/NR __setprio calls
touch only the task's non-deadline priority, outside this model). -/
def throttle_curr_dl (curr : sched_dl_entity) : sched_dl_entity :=
  { curr with dl_throttled := true }

/-- The pi_se selection at the top of enqueue_task_dl: use the top
pi-waiter's parameters when it exists and preempts p. -/
def enqueue_pi_se (p : sched_dl_entity)
    (pi_top : Option sched_dl_entity) : sched_dl_entity :=
  match pi_top with
  | some pi => if dl_entity_preempt pi p then pi else p
  | none => p

/-- enqueue_task_dl from sched_dl.c: no-op when throttled, otherwise
update the entity parameters, insert into the ready tree (counting it),
and insert into the pushable tree when not current and migratable.
Returns the runqueue together with the updated entity. -/
def enqueue_task_dl (rq : RqState) (p : sched_dl_entity)
    (pi_top : Option sched_dl_entity) (replenish is_current : Bool)
    (clock : Nat) : RqState × sched_dl_entity :=
  let pi_se := enqueue_pi_se p pi_top
  if p.dl_throttled then (rq, p)
  else
    let p1 := enqueue_dl_entity_update p pi_se replenish clock
    let rq1 : RqState :=
      { rq with
        tree := dl_tree_insert p1 rq.tree
        dl_nr_running := rq.dl_nr_running + 1 }
    let rq2 : RqState :=
      if !is_current && decide (p1.nr_cpus_allowed > 1) then
        { rq1 with pushable := pushable_tree_insert p1 rq1.pushable }
      else rq1
    (rq2, p1)

/-- __dequeue_task_dl from sched_dl.c: remove from the ready tree
(guarded as in __dequeue_dl_entity by RB_EMPTY_NODE) and from the
pushable tree (guarded likewise). -/
def dequeue_task_dl_inner (rq : RqState) (p : sched_dl_entity) : RqState :=
  let rq1 : RqState :=
    if rq.tree.contains p then
      { rq with
        tree := rq.tree.erase p
        dl_nr_running := rq.dl_nr_running - 1 }
    else rq
  if rq1.pushable.contains p then
    { rq1 with pushable := rq1.pushable.erase p }
  else rq1

/-- Flags recording which actions update_curr_dl took. -/
structure CurrFlags where
  dequeued : Bool
  throttled_set : Bool
  timer_armed : Bool
  requeued : Bool
  resched : Bool
deriving DecidableEq, Repr

def noCurrFlags : CurrFlags :=
  ⟨false, false, false, false, false⟩

/-- update_curr_dl from sched_dl.c.  `is_dl` is `dl_task(curr)`, `onrq`
is `on_dl_rq(dl_se)`, `pi_top` is `curr->pi_top_task` (so the boosted
argument of start_dl_timer is its presence), `timer_ok` abstracts the
hrtimer outcome inside start_dl_timer, `clock` is rq->clock and
`exec_start` is curr->se.exec_start.  Statistics accumulation is
omitted; the runtime charge, the bandwidth-enforcement decision and its
consequences (dequeue, throttle or replenish re-enqueue, reschedule) are
modelled. -/
def update_curr_dl (rq : RqState) (curr : sched_dl_entity)
    (pi_top : Option sched_dl_entity) (is_dl onrq timer_ok : Bool)
    (clock exec_start : Nat) : RqState × sched_dl_entity × CurrFlags :=
  if !is_dl || !onrq then (rq, curr, noCurrFlags)
  else
    let d := u64sub clock exec_start
    let delta : Int := if s64 d < 0 then 0 else (d : Int)
    let curr1 := { curr with runtime := s64wrap (curr.runtime - delta) }
    let ex := dl_runtime_exceeded clock curr1
    if ex.1 then
      let rq1 := dequeue_task_dl_inner rq curr
      let boosted := pi_top.isSome
      if start_dl_timer ex.2 boosted timer_ok then
        (rq1, throttle_curr_dl ex.2,
          ⟨true, true, true, false, true⟩)
      else
        let r := enqueue_task_dl rq1 ex.2 pi_top true true clock
        (r.1, r.2, ⟨true, false, false, true, true⟩)
    else (rq, curr1, noCurrFlags)

/-- dequeue_task_dl from sched_dl.c: when the task is not throttled,
charge the current task's runtime and remove p from both trees; when
throttled, only statistics change.  `curr` is rq->curr, the task whose
runtime update_curr_dl charges. -/
def dequeue_task_dl (rq : RqState) (curr p : sched_dl_entity)
    (pi_top : Option sched_dl_entity) (is_dl onrq timer_ok : Bool)
    (clock exec_start : Nat) :
    RqState × sched_dl_entity × sched_dl_entity :=
  if !p.dl_throttled then
    let u := update_curr_dl rq curr pi_top is_dl onrq timer_ok clock
      exec_start
    (dequeue_task_dl_inner u.1 p, u.2.1, p)
  else (rq, curr, p)

/-- put_prev_task_dl from sched_dl.c: early return when throttled;
otherwise charge runtime and re-insert into the pushable tree when still
queued and migratable. -/
def put_prev_task_dl (rq : RqState) (p : sched_dl_entity)
    (pi_top : Option sched_dl_entity) (is_dl onrq timer_ok : Bool)
    (clock exec_start : Nat) : RqState × sched_dl_entity × CurrFlags :=
  if p.dl_throttled then (rq, p, noCurrFlags)
  else
    let u := update_curr_dl rq p pi_top is_dl onrq timer_ok clock
      exec_start
    let still_on := onrq && (!u.2.2.dequeued || u.2.2.requeued)
    if still_on && decide (u.2.1.nr_cpus_allowed > 1) then
      ({ u.1 with pushable := pushable_tree_insert u.2.1 u.1.pushable },
        u.2.1, u.2.2)
    else (u.1, u.2.1, u.2.2)

/-- yield_task_dl from sched_dl.c:
`if (p->dl.runtime > 0) { dl_new = 1; runtime = 0; } update_curr_dl(rq);`
(p is rq->curr). -/
def yield_task_dl (rq : RqState) (p : sched_dl_entity)
    (pi_top : Option sched_dl_entity) (is_dl onrq timer_ok : Bool)
    (clock exec_start : Nat) : RqState × sched_dl_entity × CurrFlags :=
  let p1 := if 0 < p.runtime then { p with dl_new := true, runtime := 0 }
    else p
  update_curr_dl rq p1 pi_top is_dl onrq timer_ok clock exec_start

/-! ## Pull engine (pull_dl_task) -/

/-- A task as seen by the pull path: its deadline entity, whether it is
currently running on its runqueue (task_running), and its CPU affinity
mask as the list of allowed CPUs. -/
structure DlTask where
  dl : sched_dl_entity
  running : Bool
  cpus_allowed : List Nat
deriving DecidableEq, Repr

/-- pick_dl_task from sched_dl.c:
`!task_running && (cpu < 0 || cpumask_test_cpu(cpu, cpus_allowed)) && nr_cpus_allowed > 1`. -/
def pick_dl_task (p : DlTask) (cpu : Int) : Bool :=
  !p.running && (decide (cpu < 0) || p.cpus_allowed.contains cpu.toNat) &&
    decide (p.dl.nr_cpus_allowed > 1)

/-- pick_next_earliest_dl_task from sched_dl.c: starting from rb_next of
the leftmost node, return the first task passing pick_dl_task (so the
leftmost itself is always skipped). -/
def pick_next_earliest_dl_task (tree : List DlTask) (cpu : Int) :
    Option DlTask :=
  match tree with
  | [] => none
  | _ :: rest => rest.find? (fun q => pick_dl_task q cpu)

/-- The remote runqueue state read by one iteration of pull_dl_task. -/
structure SrcRq where
  dl_nr_running : Nat
  earliest_next : Nat
  tree : List DlTask
  curr : DlTask
deriving DecidableEq, Repr

/-- One iteration of the pull_dl_task scan for a remote overloaded CPU:
given this CPU's id, its number of ready deadline tasks, its earliest
deadline and the best deadline pulled so far (dmin), return the task the
iteration pulls from src, if any.  Mirrors the body of the for_each_cpu
loop in sched_dl.c (the deactivate/set_task_cpu/activate effect is the
`some` result). -/
def pull_iteration (this_cpu this_dl_nr_running this_earliest_curr
    dmin : Nat) (src : SrcRq) : Option DlTask :=
  if decide (this_dl_nr_running ≠ 0) &&
      dl_time_before this_earliest_curr src.earliest_next then none
  else if src.dl_nr_running ≤ 1 then none
  else
    match pick_next_earliest_dl_task src.tree (this_cpu : Int) with
    | none => none
    | some p =>
      if dl_time_before p.dl.deadline dmin &&
          (decide (this_dl_nr_running = 0) ||
            dl_time_before p.dl.deadline this_earliest_curr) then
        if dl_time_before p.dl.deadline src.curr.dl.deadline then none
        else some p
      else none

/-! ## Overload tracking (root domain) -/

/-- The migration bookkeeping of one CPU's deadline runqueue together
with the rq->online flag read by dl_set_overload/dl_clear_overload. -/
structure dl_rq_mig where
  dl_nr_migratory : Nat
  dl_nr_total : Nat
  overloaded : Bool
  online : Bool
deriving DecidableEq, Repr

instance : Inhabited dl_rq_mig := ⟨⟨0, 0, false, false⟩⟩

/-- The root domain: the per-CPU runqueues, the dlo_mask bitmap and the
atomic dlo_count (an int, hence Int). -/
structure root_domain where
  rqs : List dl_rq_mig
  dlo_mask : List Bool
  dlo_count : Int
deriving DecidableEq, Repr

def rqGet (rd : root_domain) (cpu : Nat) : dl_rq_mig :=
  rd.rqs.getD cpu default

def setRq (rd : root_domain) (cpu : Nat) (rq : dl_rq_mig) : root_domain :=
  { rd with rqs := rd.rqs.set cpu rq }

def maskGet (mask : List Bool) (cpu : Nat) : Bool := mask.getD cpu false

/-- Population count of a CPU bitmap. -/
def countTrue : List Bool → Nat
  | [] => 0
  | b :: rest => (if b then 1 else 0) + countTrue rest

/-- dl_set_overload from sched_dl.c: if the rq is online, set the CPU's
bit in dlo_mask and increment dlo_count. -/
def dl_set_overload (rd : root_domain) (cpu : Nat) : root_domain :=
  if (rqGet rd cpu).online then
    { rd with
      dlo_mask := rd.dlo_mask.set cpu true
      dlo_count := rd.dlo_count + 1 }
  else rd

/-- dl_clear_overload from sched_dl.c: if the rq is online, decrement
dlo_count and clear the CPU's bit. -/
def dl_clear_overload (rd : root_domain) (cpu : Nat) : root_domain :=
  if (rqGet rd cpu).online then
    { rd with
      dlo_mask := rd.dlo_mask.set cpu false
      dlo_count := rd.dlo_count - 1 }
  else rd

/-- update_dl_migration from sched_dl.c. -/
def update_dl_migration (rd : root_domain) (cpu : Nat) : root_domain :=
  let rq := rqGet rd cpu
  if rq.dl_nr_migratory ≠ 0 ∧ 1 < rq.dl_nr_total then
    if !rq.overloaded then
      setRq (dl_set_overload rd cpu) cpu { rq with overloaded := true }
    else rd
  else
    if rq.overloaded then
      setRq (dl_clear_overload rd cpu) cpu { rq with overloaded := false }
    else rd

/-- inc_dl_migration from sched_dl.c. -/
def inc_dl_migration (rd : root_domain) (cpu : Nat)
    (dl_se : sched_dl_entity) : root_domain :=
  let rq := rqGet rd cpu
  let rq1 :=
    { rq with
      dl_nr_total := rq.dl_nr_total + 1
      dl_nr_migratory :=
        if dl_se.nr_cpus_allowed > 1 then rq.dl_nr_migratory + 1
        else rq.dl_nr_migratory }
  update_dl_migration (setRq rd cpu rq1) cpu

/-- dec_dl_migration from sched_dl.c. -/
def dec_dl_migration (rd : root_domain) (cpu : Nat)
    (dl_se : sched_dl_entity) : root_domain :=
  let rq := rqGet rd cpu
  let rq1 :=
    { rq with
      dl_nr_total := rq.dl_nr_total - 1
      dl_nr_migratory :=
        if dl_se.nr_cpus_allowed > 1 then rq.dl_nr_migratory - 1
        else rq.dl_nr_migratory }
  update_dl_migration (setRq rd cpu rq1) cpu

/-- The dl_nr_migratory adjustment of set_cpus_allowed_dl (sched_dl.c):
performed only when the task is queued and the affinity weight changes;
then update_dl_migration runs. -/
def set_cpus_allowed_dl_mig (rd : root_domain) (cpu : Nat)
    (p : sched_dl_entity) (weight : Nat) (on_rq : Bool) : root_domain :=
  if on_rq && decide (weight ≠ p.nr_cpus_allowed) then
    let rq := rqGet rd cpu
    let rq1 :=
      if p.nr_cpus_allowed ≤ 1 ∧ 1 < weight then
        { rq with dl_nr_migratory := rq.dl_nr_migratory + 1 }
      else if 1 < p.nr_cpus_allowed ∧ weight ≤ 1 then
        { rq with dl_nr_migratory := rq.dl_nr_migratory - 1 }
      else rq
    update_dl_migration (setRq rd cpu rq1) cpu
  else rd

/-- Whether a runqueue's overloaded flag agrees with its counters:
overloaded iff at least one migratory task and at least two ready
deadline tasks. -/
def rq_ov_ok (rq : dl_rq_mig) : Prop :=
  rq.overloaded = (decide (1 ≤ rq.dl_nr_migratory) &&
    decide (2 ≤ rq.dl_nr_total))

instance (rq : dl_rq_mig) : Decidable (rq_ov_ok rq) := by
  unfold rq_ov_ok; infer_instance

/-- The overload-tracking invariant of the spec: per-CPU agreement of
the overloaded flag with the counters, agreement of the dlo_mask bit
with the flag, and dlo_count equal to the popcount of dlo_mask. -/
def dlo_invariant (rd : root_domain) : Prop :=
  rd.dlo_mask.length = rd.rqs.length ∧
  rd.dlo_count = (countTrue rd.dlo_mask : Int) ∧
  (∀ i, i < rd.rqs.length → rq_ov_ok (rqGet rd i)) ∧
  (∀ i, i < rd.rqs.length → maskGet rd.dlo_mask i = (rqGet rd i).overloaded)

instance (rd : root_domain) : Decidable (dlo_invariant rd) := by
  unfold dlo_invariant; infer_instance

/-! ## Concrete values used by witnesses and counterexamples -/

/-- A baseline well-formed deadline entity (runtime 3 of 5 left, absolute
deadline 100, migratable to 2 CPUs, no flags). -/
def exEnt : sched_dl_entity :=
  { dl_runtime := 5
    dl_deadline := 10
    dl_period := 10
    runtime := 3
    deadline := 100
    sf_head := false
    sf_bwrecl_dl := false
    sf_bwrecl_rt := false
    sf_bwrecl_nr := false
    dl_new := false
    dl_throttled := false
    nr_cpus_allowed := 2 }

/-! ## C3: the ordering comparator -/

/-- C3 counterexample: when BOTH entities carry the HEAD flag, the claim
says the result is before(a.deadline, b.deadline); but with
a.deadline = 5 after b.deadline = 3 the code still returns true (a wins),
because the first disjunct `a->flags & SF_HEAD` short-circuits. -/
theorem dl_entity_preempt_claim_false :
    dl_entity_preempt { exEnt with sf_head := true, deadline := 5 }
        { exEnt with sf_head := true, deadline := 3 } = true ∧
      dl_time_before 5 3 = false := by
  decide

/-- C3 (amended): the comparator gives priority to a HEAD `a`
unconditionally (also over a HEAD `b`); a non-HEAD `a` loses to a HEAD
`b`; otherwise the wrap-safe deadline comparison decides, and for
deadlines within the signed half-range of each other that comparison is
the natural order on deadlines. -/
theorem dl_entity_preempt_spec (a b : sched_dl_entity)
    (hb : b.deadline < 18446744073709551616)
    (h1 : (a.deadline : Int) - b.deadline < 9223372036854775808)
    (h2 : (b.deadline : Int) - a.deadline ≤ 9223372036854775808) :
    dl_entity_preempt a b =
      (if a.sf_head then true
       else if b.sf_head then false
       else dl_time_before a.deadline b.deadline) ∧
    (a.sf_head = false → b.sf_head = false →
      dl_entity_preempt a b = decide (a.deadline < b.deadline)) := by
  constructor
  · unfold dl_entity_preempt
    cases ha : a.sf_head <;> cases hbh : b.sf_head <;> simp
  · intro ha hbh
    unfold dl_entity_preempt
    rw [ha, hbh]
    simp
    exact dl_time_before_eq_lt a.deadline b.deadline hb h1 h2

/-- C3 witness. -/
theorem dl_entity_preempt_spec_witness :
    dl_entity_preempt { exEnt with deadline := 7 }
        { exEnt with deadline := 9 } = decide ((7 : Nat) < 9) := by
  have h := dl_entity_preempt_spec { exEnt with deadline := 7 }
    { exEnt with deadline := 9 } (by decide) (by decide) (by decide)
  exact h.2 (by decide) (by decide)

/-! ## C2: the CBS overflow predicate -/

/-- C2 counterexample: with dl_deadline = 3, runtime = 2, deadline − t =
3, dl_runtime = 2 the two cross-products are both 6, yet the predicate
returns false — it is the strict wrap-safe comparison
`dl_time_before(right, left)`, not the claimed non-strict one; in
particular it does NOT return true at equality. -/
theorem dl_entity_overflow_claim_false :
    dl_entity_overflow { exEnt with deadline := 10, runtime := 2 }
        { exEnt with dl_deadline := 3, dl_runtime := 2 } 7 = false ∧
      wrap (u64sub 10 7 * 2) = wrap (3 * intToU64 2) := by
  decide

/-- C2 (amended): at practical magnitudes (both cross-products below
2^63, nonnegative s64 runtime, t not after the deadline) the predicate
returns true exactly when the strict inequality
(deadline − t) · dl_runtime < dl_deadline · runtime holds; equality of
the cross-products yields false. -/
theorem dl_entity_overflow_spec (dl_se pi_se : sched_dl_entity) (t : Nat)
    (ht : t ≤ dl_se.deadline) (hdl : dl_se.deadline < 18446744073709551616)
    (hr0 : 0 ≤ dl_se.runtime) (hr : dl_se.runtime < 9223372036854775808)
    (hleft : pi_se.dl_deadline * dl_se.runtime.toNat < 9223372036854775808)
    (hright : (dl_se.deadline - t) * pi_se.dl_runtime <
      9223372036854775808) :
    dl_entity_overflow dl_se pi_se t =
      decide ((dl_se.deadline - t) * pi_se.dl_runtime <
        pi_se.dl_deadline * dl_se.runtime.toNat) := by
  unfold dl_entity_overflow
  have hconv : intToU64 dl_se.runtime = dl_se.runtime.toNat := by
    unfold intToU64
    rw [Int.emod_eq_of_lt hr0 (by omega)]
  have hsub : u64sub dl_se.deadline t = dl_se.deadline - t := by
    unfold u64sub; omega
  rw [hconv, hsub]
  have hw1 : wrap (pi_se.dl_deadline * dl_se.runtime.toNat) =
      pi_se.dl_deadline * dl_se.runtime.toNat := by
    unfold wrap; omega
  have hw2 : wrap ((dl_se.deadline - t) * pi_se.dl_runtime) =
      (dl_se.deadline - t) * pi_se.dl_runtime := by
    unfold wrap; omega
  rw [hw1, hw2]
  exact dl_time_before_eq_lt _ _ (by omega) (by push_cast; omega)
    (by push_cast; omega)

/-- C2 witness: 4/10 of the budget left with 5/10 of the time left does
not overflow the bandwidth; strictly more budget than time share does. -/
theorem dl_entity_overflow_spec_witness :
    dl_entity_overflow { exEnt with deadline := 100, runtime := 4 }
        { exEnt with dl_deadline := 10, dl_runtime := 10 } 95 =
      decide ((100 - 95) * 10 < 10 * (4 : Int).toNat) := by
  exact dl_entity_overflow_spec
    { exEnt with deadline := 100, runtime := 4 }
    { exEnt with dl_deadline := 10, dl_runtime := 10 } 95
    (by decide) (by decide) (by decide) (by decide) (by decide) (by decide)

/-! ## C8: enqueue of a throttled task is a no-op -/

/-- C8: enqueue_task_dl returns the state and the task unchanged when
dl_throttled is set — nothing enters the ready or pushable tree and the
entity's fields are untouched; consequently a throttled entity absent
from the ready tree stays absent. -/
theorem enqueue_task_dl_throttled (rq : RqState) (p : sched_dl_entity)
    (pi_top : Option sched_dl_entity) (replenish is_current : Bool)
    (clock : Nat) (h : p.dl_throttled = true) :
    enqueue_task_dl rq p pi_top replenish is_current clock = (rq, p) ∧
    (p ∉ rq.tree →
      p ∉ (enqueue_task_dl rq p pi_top replenish is_current clock).1.tree) := by
  have he : enqueue_task_dl rq p pi_top replenish is_current clock =
      (rq, p) := by
    unfold enqueue_task_dl
    rw [if_pos h]
  exact ⟨he, by rw [he]; exact id⟩

/-- C8 witness. -/
theorem enqueue_task_dl_throttled_witness :
    enqueue_task_dl ⟨[], [], 0⟩ { exEnt with dl_throttled := true } none
      false false 50 = (⟨[], [], 0⟩, { exEnt with dl_throttled := true }) := by
  exact (enqueue_task_dl_throttled ⟨[], [], 0⟩
    { exEnt with dl_throttled := true } none false false 50 (by decide)).1

/-! ## C10: dequeue and put-prev of a throttled task change nothing -/

/-- C10: for a throttled task, dequeue_task_dl and put_prev_task_dl
leave the runqueue and every entity field unchanged (only statistics
counters, outside this model, are touched in the code). -/
theorem throttled_dequeue_put_prev_noop (rq : RqState)
    (curr p : sched_dl_entity) (pi_top : Option sched_dl_entity)
    (is_dl onrq timer_ok : Bool) (clock exec_start : Nat)
    (h : p.dl_throttled = true) :
    dequeue_task_dl rq curr p pi_top is_dl onrq timer_ok clock exec_start =
      (rq, curr, p) ∧
    put_prev_task_dl rq p pi_top is_dl onrq timer_ok clock exec_start =
      (rq, p, noCurrFlags) := by
  constructor
  · unfold dequeue_task_dl
    rw [h]
    simp
  · unfold put_prev_task_dl
    rw [if_pos h]

/-- C10 witness. -/
theorem throttled_dequeue_put_prev_noop_witness :
    dequeue_task_dl ⟨[], [], 0⟩ exEnt { exEnt with dl_throttled := true }
        none true true true 60 50 =
      (⟨[], [], 0⟩, exEnt, { exEnt with dl_throttled := true }) := by
  exact (throttled_dequeue_put_prev_noop ⟨[], [], 0⟩ exEnt
    { exEnt with dl_throttled := true } none true true true 60 50
    (by decide)).1

/-! ## C5: the CBS enqueue-update rule -/

/-- C5: for an enqueue with dl_new clear and no REPLENISH flag, the
parameter update resets deadline to now + dl_deadline and runtime to
dl_runtime exactly when the old deadline lies in the past or the
overflow predicate fires at now; otherwise the entity (in particular its
deadline/runtime pair) is returned unchanged. -/
theorem update_dl_entity_cbs_rule (dl_se pi_se : sched_dl_entity)
    (clock : Nat) (hnew : dl_se.dl_new = false) :
    ((dl_time_before dl_se.deadline clock ||
        dl_entity_overflow dl_se pi_se clock) = true →
      enqueue_dl_entity_update dl_se pi_se false clock =
        { dl_se with
          deadline := wrap (clock + pi_se.dl_deadline)
          runtime := (pi_se.dl_runtime : Int) }) ∧
    ((dl_time_before dl_se.deadline clock ||
        dl_entity_overflow dl_se pi_se clock) = false →
      enqueue_dl_entity_update dl_se pi_se false clock = dl_se) := by
  unfold enqueue_dl_entity_update update_dl_entity
  rw [hnew]
  constructor
  · intro hcond
    simp [hcond]
  · intro hcond
    simp [hcond]

/-- C5 witness: an entity whose deadline is still ahead and whose
remaining bandwidth fits keeps its (deadline, runtime) pair; one whose
deadline has passed gets the fresh pair. -/
theorem update_dl_entity_cbs_rule_witness :
    enqueue_dl_entity_update exEnt exEnt false 50 = exEnt ∧
    enqueue_dl_entity_update { exEnt with deadline := 40 } exEnt false 50 =
      { exEnt with deadline := wrap (50 + exEnt.dl_deadline)
                   runtime := (exEnt.dl_runtime : Int) } := by
  constructor
  · exact (update_dl_entity_cbs_rule exEnt exEnt 50 (by decide)).2
      (by decide)
  · exact (update_dl_entity_cbs_rule { exEnt with deadline := 40 } exEnt
      50 (by decide)).1 (by decide)

/-! ## C6: HEAD entities are never throttled by bandwidth accounting -/

/-- dl_runtime_exceeded never fires for a HEAD entity. -/
theorem dl_runtime_exceeded_head (clock : Nat) (dl_se : sched_dl_entity)
    (h : dl_se.sf_head = true) :
    dl_runtime_exceeded clock dl_se = (false, dl_se) := by
  unfold dl_runtime_exceeded
  simp [h]

/-- C6: bandwidth accounting on a HEAD entity never dequeues it, never
sets dl_throttled, never arms the replenishment timer and leaves the
runqueue untouched, however negative its runtime or late its deadline. -/
theorem update_curr_dl_head_no_throttle (rq : RqState)
    (curr : sched_dl_entity) (pi_top : Option sched_dl_entity)
    (is_dl onrq timer_ok : Bool) (clock exec_start : Nat)
    (h : curr.sf_head = true) :
    (update_curr_dl rq curr pi_top is_dl onrq timer_ok clock
        exec_start).1 = rq ∧
    (update_curr_dl rq curr pi_top is_dl onrq timer_ok clock
        exec_start).2.2 = noCurrFlags ∧
    (update_curr_dl rq curr pi_top is_dl onrq timer_ok clock
        exec_start).2.1.dl_throttled = curr.dl_throttled := by
  cases is_dl <;> cases onrq <;>
    simp [update_curr_dl, dl_runtime_exceeded_head, h]

/-- C6 witness: a HEAD entity 1000 ns past its deadline with a deeply
negative budget is still charged but neither dequeued nor throttled. -/
theorem update_curr_dl_head_no_throttle_witness :
    (update_curr_dl ⟨[], [], 1⟩
        { exEnt with sf_head := true, runtime := -500, deadline := 10 }
        none true true true 1010 1000).2.2 = noCurrFlags := by
  exact (update_curr_dl_head_no_throttle ⟨[], [], 1⟩
    { exEnt with sf_head := true, runtime := -500, deadline := 10 }
    none true true true 1010 1000 (by decide)).2.1

/-! ## C9: voluntary yield -/

/-- C9 counterexample: when the yielding task's runtime is already 0,
yield_task_dl does NOT set dl_new (the guard `if (p->dl.runtime > 0)`
fails), contrary to the claim that every yield sets dl_new := 1 and
runtime := 0 before running update_curr. -/
theorem yield_task_dl_claim_false :
    yield_task_dl ⟨[], [], 0⟩ { exEnt with runtime := 0 } none true true
        true 50 50 ≠
      update_curr_dl ⟨[], [], 0⟩
        { exEnt with runtime := 0, dl_new := true } none true true true
        50 50 := by
  decide

/-- The bandwidth-accounting step on a current task with zero remaining
runtime and no HEAD flag always detects exhaustion: the task is dequeued
and a reschedule requested (then either the timer is armed or the task
is re-enqueued with replenishment). -/
theorem update_curr_dl_zero_runtime (rq : RqState)
    (curr : sched_dl_entity) (pi_top : Option sched_dl_entity)
    (timer_ok : Bool) (clock exec_start : Nat) (h0 : curr.runtime = 0)
    (hh : curr.sf_head = false) :
    (update_curr_dl rq curr pi_top true true timer_ok clock
        exec_start).2.2.dequeued = true ∧
    (update_curr_dl rq curr pi_top true true timer_ok clock
        exec_start).2.2.resched = true := by
  have hd : u64sub clock exec_start < 18446744073709551616 := by
    unfold u64sub; omega
  have hdelta0 : 0 ≤ (if s64 (u64sub clock exec_start) < 0 then (0 : Int)
      else ((u64sub clock exec_start : Nat) : Int)) := by
    by_cases hs : s64 (u64sub clock exec_start) < 0
    · rw [if_pos hs]
    · rw [if_neg hs]; omega
  have hdelta : (if s64 (u64sub clock exec_start) < 0 then (0 : Int)
      else ((u64sub clock exec_start : Nat) : Int)) <
      9223372036854775808 := by
    by_cases hs : s64 (u64sub clock exec_start) < 0
    · rw [if_pos hs]; omega
    · rw [if_neg hs]
      unfold s64 at hs
      split at hs <;> omega
  have hrun : s64wrap (curr.runtime -
      (if s64 (u64sub clock exec_start) < 0 then (0 : Int)
        else ((u64sub clock exec_start : Nat) : Int))) ≤ 0 := by
    rw [h0, s64wrap_eq_self _ (by omega) (by omega)]
    omega
  have hex : (dl_runtime_exceeded clock
      { curr with runtime := s64wrap (curr.runtime -
        (if s64 (u64sub clock exec_start) < 0 then (0 : Int)
          else ((u64sub clock exec_start : Nat) : Int))) }).1 = true := by
    unfold dl_runtime_exceeded
    simp [hh, hrun]
  unfold update_curr_dl
  rw [if_neg (by decide : ¬((!true || !true) = true))]
  rw [if_pos hex]
  by_cases hst : start_dl_timer (dl_runtime_exceeded clock
      { curr with runtime := s64wrap (curr.runtime -
        (if s64 (u64sub clock exec_start) < 0 then (0 : Int)
          else ((u64sub clock exec_start : Nat) : Int))) }).2
      pi_top.isSome timer_ok = true
  · rw [if_pos hst]
    exact ⟨rfl, rfl⟩
  · rw [if_neg hst]
    exact ⟨rfl, rfl⟩

/-- C9 (amended): when the yielding task still has positive runtime,
yield_task_dl sets dl_new := 1 and runtime := 0 and then runs the
bandwidth-accounting step, which (for a non-HEAD task) detects the
exhausted budget, dequeues the task and requests a reschedule (arming
the replenishment timer or re-enqueueing with replenishment); when
runtime is already non-positive the fields are left as they are and only
update_curr runs. -/
theorem yield_task_dl_spec (rq : RqState) (p : sched_dl_entity)
    (pi_top : Option sched_dl_entity) (timer_ok : Bool)
    (clock exec_start : Nat) (hr : 0 < p.runtime)
    (hh : p.sf_head = false) :
    yield_task_dl rq p pi_top true true timer_ok clock exec_start =
      update_curr_dl rq { p with dl_new := true, runtime := 0 } pi_top
        true true timer_ok clock exec_start ∧
    (yield_task_dl rq p pi_top true true timer_ok clock
        exec_start).2.2.dequeued = true ∧
    (yield_task_dl rq p pi_top true true timer_ok clock
        exec_start).2.2.resched = true := by
  have heq : yield_task_dl rq p pi_top true true timer_ok clock
      exec_start =
      update_curr_dl rq { p with dl_new := true, runtime := 0 } pi_top
        true true timer_ok clock exec_start := by
    unfold yield_task_dl
    rw [if_pos hr]
  refine ⟨heq, ?_, ?_⟩
  · rw [heq]
    exact (update_curr_dl_zero_runtime rq
      { p with dl_new := true, runtime := 0 } pi_top timer_ok clock
      exec_start (by simp) (by simp [hh])).1
  · rw [heq]
    exact (update_curr_dl_zero_runtime rq
      { p with dl_new := true, runtime := 0 } pi_top timer_ok clock
      exec_start (by simp) (by simp [hh])).2

/-- C9 witness. -/
theorem yield_task_dl_spec_witness :
    yield_task_dl ⟨[], [], 1⟩ exEnt none true true true 60 50 =
      update_curr_dl ⟨[], [], 1⟩ { exEnt with dl_new := true, runtime := 0 }
        none true true true 60 50 := by
  exact (yield_task_dl_spec ⟨[], [], 1⟩ exEnt none true 60 50 (by decide)
    (by decide)).1

/-! ## C1: the pull decision -/

/-- The remote CPU's running task (deadline 60, pinned there). -/
def pullCurrTask : DlTask := ⟨{ exEnt with deadline := 60 }, true, [0]⟩

/-- The pull candidate: second-earliest on the remote tree, not running,
allowed on CPU 1, migratable (deadline 50). -/
def pullCandTask : DlTask := ⟨{ exEnt with deadline := 50 }, false, [0, 1]⟩

/-- The remote overloaded runqueue scanned in the counterexample: two
ready deadline tasks, second-earliest deadline 50 published, running
task with deadline 60. -/
def pullSrcRq : SrcRq := ⟨2, 50, [pullCurrTask, pullCandTask], pullCurrTask⟩

/-- C1 counterexample: on this scanned remote CPU the candidate
qualifies (deadline 50 beats dmin = LONG_MAX and our earliest 100) and
its deadline IS earlier than the remote's running task's (50 < 60), yet
pull_dl_task does NOT pull it: the code's guard
`if (dl_time_before(p->dl.deadline, src_rq->curr->dl.deadline)) goto skip;`
skips exactly when the candidate is earlier — the opposite of the claim
(and of the comment above that guard in the source). -/
theorem pull_dl_task_claim_false :
    pick_next_earliest_dl_task pullSrcRq.tree 1 = some pullCandTask ∧
    dl_time_before pullCandTask.dl.deadline 9223372036854775807 = true ∧
    dl_time_before pullCandTask.dl.deadline 100 = true ∧
    dl_time_before pullCandTask.dl.deadline pullSrcRq.curr.dl.deadline =
      true ∧
    pull_iteration 1 1 100 9223372036854775807 pullSrcRq = none := by
  decide

/-- C1 (amended): on a scanned remote CPU (not skipped by the
earliest-next test, with at least two ready deadline tasks) whose
candidate qualifies — earlier than dmin and than our earliest (or we are
empty) — the candidate is pulled if and only if its deadline is NOT
earlier than the deadline of the remote's currently running task. -/
theorem pull_iteration_spec (this_cpu this_nr this_earliest dmin : Nat)
    (src : SrcRq) (p : DlTask)
    (hscan : (decide (this_nr ≠ 0) &&
      dl_time_before this_earliest src.earliest_next) = false)
    (hnr : ¬ (src.dl_nr_running ≤ 1))
    (hpick : pick_next_earliest_dl_task src.tree (this_cpu : Int) =
      some p)
    (hqual : (dl_time_before p.dl.deadline dmin &&
      (decide (this_nr = 0) ||
        dl_time_before p.dl.deadline this_earliest)) = true) :
    pull_iteration this_cpu this_nr this_earliest dmin src = some p ↔
      dl_time_before p.dl.deadline src.curr.dl.deadline = false := by
  unfold pull_iteration
  rw [hscan, if_neg (by simp), if_neg hnr, hpick]
  simp only [hqual, eq_self_iff_true, if_true]
  by_cases hb : dl_time_before p.dl.deadline src.curr.dl.deadline = true
  · rw [if_pos hb]
    simp [hb]
  · rw [if_neg hb]
    simp at hb
    simp [hb]

/-- C1 witness: the same situation with the remote running task at
deadline 40 (earlier than the candidate's 50) — now the candidate is
pulled. -/
theorem pull_iteration_spec_witness :
    pull_iteration 1 1 100 9223372036854775807
        ⟨2, 50, [⟨{ exEnt with deadline := 40 }, true, [0]⟩, pullCandTask],
          ⟨{ exEnt with deadline := 40 }, true, [0]⟩⟩ = some pullCandTask := by
  have h := pull_iteration_spec 1 1 100 9223372036854775807
    ⟨2, 50, [⟨{ exEnt with deadline := 40 }, true, [0]⟩, pullCandTask],
      ⟨{ exEnt with deadline := 40 }, true, [0]⟩⟩ pullCandTask
    (by decide) (by decide) (by decide) (by decide)
  exact h.mpr (by decide)

/-! ## C4: replenishment -/

/-- Behaviour of the replenishment loop: with 0 < dl_runtime < 2^63 and
enough fuel, the loop performs exactly k steps — advancing the deadline
by k periods (mod 2^64) and the runtime by k budgets — where k is the
first step count making the runtime positive. -/
theorem replenish_go_spec (period d : Nat) (hd : 0 < d)
    (hd63 : (d : Int) < 9223372036854775808) :
    ∀ (fuel : Nat) (deadline : Nat) (runtime : Int),
      deadline < 18446744073709551616 →
      -9223372036854775808 ≤ runtime →
      0 < runtime + (fuel : Int) * d →
      ∃ k : Nat, k ≤ fuel ∧
        replenish_go period d fuel deadline runtime =
          (wrap (deadline + k * period), runtime + (k : Int) * d) ∧
        0 < runtime + (k : Int) * d ∧
        ∀ j : Nat, j < k → runtime + (j : Int) * d ≤ 0 := by
  intro fuel
  induction fuel with
  | zero =>
    intro deadline runtime hdl hlo hpos
    refine ⟨0, Nat.le_refl 0, ?_, ?_, ?_⟩
    · show (deadline, runtime) = _
      simp [wrap, Prod.ext_iff]
      omega
    · simpa using hpos
    · intro j hj; omega
  | succ fuel ih =>
    intro deadline runtime hdl hlo hpos
    by_cases hr0 : runtime ≤ 0
    · have hsw : s64wrap (runtime + (d : Int)) = runtime + d :=
        s64wrap_eq_self _ (by omega) (by omega)
      have hstep : replenish_go period d (fuel + 1) deadline runtime =
          replenish_go period d fuel (wrap (deadline + period))
            (runtime + d) := by
        simp [replenish_go, hr0, hsw]
      have hpos2 : 0 < (runtime + d) + (fuel : Int) * d := by
        push_cast at hpos
        linarith
      obtain ⟨k', hk'le, hk'eq, hk'pos, hk'min⟩ := ih
        (wrap (deadline + period)) (runtime + d) (wrap_lt _) (by omega)
        hpos2
      refine ⟨k' + 1, by omega, ?_, ?_, ?_⟩
      · rw [hstep, hk'eq, wrap_add_left]
        have hn : deadline + period + k' * period =
            deadline + (k' + 1) * period := by ring
        have hi : runtime + d + (k' : Int) * d =
            runtime + ((k' + 1 : Nat) : Int) * d := by push_cast; ring
        rw [hn, hi]
      · push_cast
        linarith
      · intro j hj
        cases j with
        | zero => simpa using hr0
        | succ j' =>
          have hm := hk'min j' (by omega)
          push_cast at hm ⊢
          linarith
    · have hstep : replenish_go period d (fuel + 1) deadline runtime =
          (deadline, runtime) := by
        simp [replenish_go, hr0]
      refine ⟨0, by omega, ?_, by simpa using hr0, ?_⟩
      · rw [hstep]
        simp [wrap, Prod.ext_iff]
        omega
      · intro j hj; omega

/-- C4 counterexample.  First conjunct: with dl_deadline = 2^63 (an
admissible u64 under the claim's hypotheses 0 < dl_runtime and
runtime ≤ 0) the reset path produces a deadline that the wrap-safe
comparison places BEFORE the clock, refuting the postcondition "the
deadline is not before now".  Second conjunct: with dl_runtime = 2^63
the C loop never terminates (the s64 `runtime += dl_runtime` wraps to
−2^63 forever); the bounded model accordingly returns with runtime ≤ 0,
refuting "runtime > 0 on return". -/
theorem replenish_dl_entity_claim_false :
    dl_time_before (replenish_dl_entity
        { exEnt with deadline := 0, runtime := 0 }
        { exEnt with
          dl_runtime := 5
          dl_period := 0
          dl_deadline := 9223372036854775808 } 1).deadline 1 = true ∧
    ¬ (0 < (replenish_dl_entity
        { exEnt with runtime := 0, deadline := 100 }
        { exEnt with
          dl_runtime := 9223372036854775808
          dl_period := 10 } 0).runtime) := by
  decide

/-- C4 (amended): for an entity with exhausted runtime and parameters in
the signed-64-bit half-range (0 < dl_runtime < 2^63, dl_deadline < 2^63,
runtime an s64 value ≤ 0), replenish_dl_entity runs the loop for exactly
the first number k of periods that makes the runtime positive, then —
exactly when the advanced deadline is still before the clock — resets to
now + dl_deadline with a full budget; on return the runtime is positive
and the deadline is not before now. -/
theorem replenish_dl_entity_spec (dl_se pi_se : sched_dl_entity)
    (clock : Nat) (h1 : 0 < pi_se.dl_runtime)
    (h1b : (pi_se.dl_runtime : Int) < 9223372036854775808)
    (h2 : dl_se.runtime ≤ 0) (h2b : -9223372036854775808 ≤ dl_se.runtime)
    (h3 : pi_se.dl_deadline < 9223372036854775808)
    (h4 : dl_se.deadline < 18446744073709551616) :
    0 < (replenish_dl_entity dl_se pi_se clock).runtime ∧
    dl_time_before (replenish_dl_entity dl_se pi_se clock).deadline
      clock = false ∧
    ∃ k : Nat,
      replenish_go pi_se.dl_period pi_se.dl_runtime
          (replenish_fuel dl_se.runtime) dl_se.deadline dl_se.runtime =
        (wrap (dl_se.deadline + k * pi_se.dl_period),
          dl_se.runtime + (k : Int) * pi_se.dl_runtime) ∧
      0 < dl_se.runtime + (k : Int) * pi_se.dl_runtime ∧
      (∀ j : Nat, j < k →
        dl_se.runtime + (j : Int) * pi_se.dl_runtime ≤ 0) ∧
      (dl_time_before (wrap (dl_se.deadline + k * pi_se.dl_period))
          clock = true →
        (replenish_dl_entity dl_se pi_se clock).deadline =
          wrap (clock + pi_se.dl_deadline) ∧
        (replenish_dl_entity dl_se pi_se clock).runtime =
          (pi_se.dl_runtime : Int)) ∧
      (dl_time_before (wrap (dl_se.deadline + k * pi_se.dl_period))
          clock = false →
        (replenish_dl_entity dl_se pi_se clock).deadline =
          wrap (dl_se.deadline + k * pi_se.dl_period) ∧
        (replenish_dl_entity dl_se pi_se clock).runtime =
          dl_se.runtime + (k : Int) * pi_se.dl_runtime) := by
  have hfcast : ((replenish_fuel dl_se.runtime : Nat) : Int) =
      1 - dl_se.runtime := by
    unfold replenish_fuel
    rw [Int.toNat_of_nonneg (by omega)]
  have hfuel : 0 < dl_se.runtime +
      ((replenish_fuel dl_se.runtime : Nat) : Int) * pi_se.dl_runtime := by
    have hone : (1 : Int) ≤ (pi_se.dl_runtime : Int) := by
      exact_mod_cast h1
    have hmul : ((replenish_fuel dl_se.runtime : Nat) : Int) * 1 ≤
        ((replenish_fuel dl_se.runtime : Nat) : Int) *
          (pi_se.dl_runtime : Int) :=
      mul_le_mul_of_nonneg_left hone (by positivity)
    rw [mul_one] at hmul
    omega
  obtain ⟨k, hkle, hkeq, hkpos, hkmin⟩ := replenish_go_spec
    pi_se.dl_period pi_se.dl_runtime h1 h1b
    (replenish_fuel dl_se.runtime) dl_se.deadline dl_se.runtime h4 h2b
    hfuel
  have hrep : replenish_dl_entity dl_se pi_se clock =
      (if dl_time_before (wrap (dl_se.deadline + k * pi_se.dl_period))
          clock then
        { dl_se with
          deadline := wrap (clock + pi_se.dl_deadline)
          runtime := (pi_se.dl_runtime : Int) }
      else
        { dl_se with
          deadline := wrap (dl_se.deadline + k * pi_se.dl_period)
          runtime := dl_se.runtime + (k : Int) * pi_se.dl_runtime }) := by
    unfold replenish_dl_entity
    rw [hkeq]
  by_cases hb : dl_time_before
      (wrap (dl_se.deadline + k * pi_se.dl_period)) clock = true
  · rw [hrep, if_pos hb]
    refine ⟨by simpa using h1, ?_, k, hkeq, hkpos, hkmin, ?_, ?_⟩
    · exact dl_time_before_add_small clock pi_se.dl_deadline h3
    · intro _; exact ⟨rfl, rfl⟩
    · intro hcontra; rw [hb] at hcontra; cases hcontra
  · rw [hrep, if_neg (by simp [Bool.not_eq_true] at hb; simp [hb])]
    have hb' : dl_time_before
        (wrap (dl_se.deadline + k * pi_se.dl_period)) clock = false := by
      simpa using hb
    refine ⟨hkpos, hb', k, hkeq, hkpos, hkmin, ?_, ?_⟩
    · intro hcontra; rw [hb'] at hcontra; cases hcontra
    · intro _; exact ⟨rfl, rfl⟩

/-- C4 witness: runtime −7 with budget 5 needs two periods; the
advanced deadline 120 is ahead of the clock 110, so no reset happens. -/
theorem replenish_dl_entity_spec_witness :
    0 < (replenish_dl_entity { exEnt with runtime := -7 } exEnt
      110).runtime ∧
    dl_time_before (replenish_dl_entity { exEnt with runtime := -7 }
      exEnt 110).deadline 110 = false := by
  have h := replenish_dl_entity_spec { exEnt with runtime := -7 } exEnt
    110 (by decide) (by decide) (by decide) (by decide) (by decide)
    (by decide)
  exact ⟨h.1, h.2.1⟩

/-! ## C7: list lemmas and the overload-tracking invariant -/

theorem getD_set_self {α : Type} (l : List α) (i : Nat) (a dflt : α)
    (h : i < l.length) : (l.set i a).getD i dflt = a := by
  induction l generalizing i with
  | nil => simp at h
  | cons x xs ih =>
    cases i with
    | zero => rfl
    | succ n =>
      show (x :: xs.set n a).getD (n + 1) dflt = a
      rw [List.getD_cons_succ]
      exact ih n (by simpa using h)

theorem getD_set_ne {α : Type} (l : List α) (i j : Nat) (a dflt : α)
    (hij : i ≠ j) : (l.set i a).getD j dflt = l.getD j dflt := by
  induction l generalizing i j with
  | nil => rfl
  | cons x xs ih =>
    cases i with
    | zero =>
      cases j with
      | zero => exact absurd rfl hij
      | succ m =>
        show (a :: xs).getD (m + 1) dflt = (x :: xs).getD (m + 1) dflt
        rw [List.getD_cons_succ, List.getD_cons_succ]
    | succ n =>
      cases j with
      | zero => rfl
      | succ m =>
        show (x :: xs.set n a).getD (m + 1) dflt =
          (x :: xs).getD (m + 1) dflt
        rw [List.getD_cons_succ, List.getD_cons_succ]
        exact ih n m (fun hnm => hij (by rw [hnm]))

theorem countTrue_set (l : List Bool) (i : Nat) (b : Bool)
    (h : i < l.length) :
    countTrue (l.set i b) + (if maskGet l i then 1 else 0) =
      countTrue l + (if b then 1 else 0) := by
  induction l generalizing i with
  | nil => simp at h
  | cons x xs ih =>
    cases i with
    | zero =>
      show countTrue (b :: xs) + _ = countTrue (x :: xs) + _
      unfold countTrue maskGet
      simp [List.getD_cons_zero]
      omega
    | succ n =>
      show countTrue (x :: xs.set n b) + _ = countTrue (x :: xs) + _
      unfold countTrue maskGet
      rw [List.getD_cons_succ]
      have := ih n (by simpa using h)
      unfold maskGet at this
      omega

theorem rq_ov_ok_of_true (rq : dl_rq_mig) (hov : rq.overloaded = true)
    (h1 : 1 ≤ rq.dl_nr_migratory) (h2 : 2 ≤ rq.dl_nr_total) :
    rq_ov_ok rq := by
  unfold rq_ov_ok
  rw [hov]
  simp [h1, h2]

theorem rq_ov_ok_of_false (rq : dl_rq_mig) (hov : rq.overloaded = false)
    (h : ¬ (1 ≤ rq.dl_nr_migratory ∧ 2 ≤ rq.dl_nr_total)) :
    rq_ov_ok rq := by
  unfold rq_ov_ok
  rw [hov]
  rcases Decidable.em (1 ≤ rq.dl_nr_migratory) with h1 | h1
  · have h2 : ¬ 2 ≤ rq.dl_nr_total := fun ht => h ⟨h1, ht⟩
    simp [h1, h2]
  · simp [h1]

/-- The invariant with the per-CPU flag/counter agreement waived at one
CPU (the one whose counters an operation has just changed). -/
def pre_inv (rd : root_domain) (cpu : Nat) : Prop :=
  rd.dlo_mask.length = rd.rqs.length ∧
  rd.dlo_count = (countTrue rd.dlo_mask : Int) ∧
  (∀ i, i < rd.rqs.length → i ≠ cpu → rq_ov_ok (rqGet rd i)) ∧
  (∀ i, i < rd.rqs.length → maskGet rd.dlo_mask i = (rqGet rd i).overloaded)

theorem pre_inv_of_invariant (rd : root_domain) (cpu : Nat)
    (rq1 : dl_rq_mig) (hinv : dlo_invariant rd)
    (hov : rq1.overloaded = (rqGet rd cpu).overloaded) :
    pre_inv (setRq rd cpu rq1) cpu := by
  obtain ⟨hlen, hcount, hok, hbit⟩ := hinv
  refine ⟨?_, ?_, ?_, ?_⟩
  · simpa [setRq] using hlen
  · simpa [setRq] using hcount
  · intro i hi hne
    have hi' : i < rd.rqs.length := by simpa [setRq] using hi
    have : rqGet (setRq rd cpu rq1) i = rqGet rd i :=
      getD_set_ne rd.rqs cpu i rq1 default (fun hc => hne hc.symm)
    rw [this]
    exact hok i hi'
  · intro i hi
    have hi' : i < rd.rqs.length := by simpa [setRq] using hi
    by_cases hic : i = cpu
    · subst hic
      have h1 : rqGet (setRq rd i rq1) i = rq1 :=
        getD_set_self rd.rqs i rq1 default hi'
      rw [show (setRq rd i rq1).dlo_mask = rd.dlo_mask from rfl, h1, hov]
      exact hbit i hi'
    · have h1 : rqGet (setRq rd cpu rq1) i = rqGet rd i :=
        getD_set_ne rd.rqs cpu i rq1 default (fun hc => hic hc.symm)
      rw [show (setRq rd cpu rq1).dlo_mask = rd.dlo_mask from rfl, h1]
      exact hbit i hi'

/-- update_dl_migration restores the full invariant from the weakened
one, provided the touched CPU exists and is online. -/
theorem update_dl_migration_inv (rd : root_domain) (cpu : Nat)
    (h : pre_inv rd cpu) (hcpu : cpu < rd.rqs.length)
    (hon : (rqGet rd cpu).online = true) :
    dlo_invariant (update_dl_migration rd cpu) := by
  obtain ⟨hlen, hcount, hok, hbit⟩ := h
  have hbitc : maskGet rd.dlo_mask cpu = (rqGet rd cpu).overloaded :=
    hbit cpu hcpu
  have hmlen : cpu < rd.dlo_mask.length := by omega
  unfold update_dl_migration
  by_cases hcond : (rqGet rd cpu).dl_nr_migratory ≠ 0 ∧
      1 < (rqGet rd cpu).dl_nr_total
  · rw [if_pos hcond]
    by_cases hov : (rqGet rd cpu).overloaded = true
    · rw [if_neg (by simp [hov])]
      refine ⟨hlen, hcount, ?_, hbit⟩
      intro i hi
      by_cases hic : i = cpu
      · subst hic
        exact rq_ov_ok_of_true _ hov (by omega) (by omega)
      · exact hok i hi hic
    · rw [if_pos (by simp [Bool.not_eq_true] at hov; simp [hov])]
      unfold dl_set_overload
      rw [if_pos hon]
      have hovf : (rqGet rd cpu).overloaded = false := by
        simpa using hov
      refine ⟨?_, ?_, ?_, ?_⟩
      · simp [setRq]; omega
      · show rd.dlo_count + 1 = (countTrue (rd.dlo_mask.set cpu true) : Int)
        have hc := countTrue_set rd.dlo_mask cpu true hmlen
        rw [hbitc, hovf] at hc
        simp at hc
        omega
      · intro i hi
        have hi' : i < rd.rqs.length := by simpa [setRq] using hi
        by_cases hic : i = cpu
        · subst hic
          have h1 : rqGet (setRq { rd with
              dlo_mask := rd.dlo_mask.set i true
              dlo_count := rd.dlo_count + 1 } i
              { rqGet rd i with overloaded := true }) i =
              { rqGet rd i with overloaded := true } :=
            getD_set_self _ i _ default hi'
          rw [h1]
          exact rq_ov_ok_of_true _ rfl
            (show 1 ≤ (rqGet rd i).dl_nr_migratory by omega)
            (show 2 ≤ (rqGet rd i).dl_nr_total by omega)
        · have h1 : rqGet (setRq { rd with
              dlo_mask := rd.dlo_mask.set cpu true
              dlo_count := rd.dlo_count + 1 } cpu
              { rqGet rd cpu with overloaded := true }) i = rqGet rd i :=
            getD_set_ne _ cpu i _ default (fun hc => hic hc.symm)
          rw [h1]
          exact hok i hi' hic
      · intro i hi
        have hi' : i < rd.rqs.length := by simpa [setRq] using hi
        by_cases hic : i = cpu
        · subst hic
          have h1 : rqGet (setRq { rd with
              dlo_mask := rd.dlo_mask.set i true
              dlo_count := rd.dlo_count + 1 } i
              { rqGet rd i with overloaded := true }) i =
              { rqGet rd i with overloaded := true } :=
            getD_set_self _ i _ default hi'
          rw [h1]
          show maskGet (rd.dlo_mask.set i true) i = true
          exact getD_set_self rd.dlo_mask i true false hmlen
        · have h1 : rqGet (setRq { rd with
              dlo_mask := rd.dlo_mask.set cpu true
              dlo_count := rd.dlo_count + 1 } cpu
              { rqGet rd cpu with overloaded := true }) i = rqGet rd i :=
            getD_set_ne _ cpu i _ default (fun hc => hic hc.symm)
          rw [h1]
          show maskGet (rd.dlo_mask.set cpu true) i = (rqGet rd i).overloaded
          rw [show maskGet (rd.dlo_mask.set cpu true) i =
            maskGet rd.dlo_mask i from
            getD_set_ne rd.dlo_mask cpu i true false (fun hc => hic hc.symm)]
          exact hbit i hi'
  · rw [if_neg hcond]
    by_cases hov : (rqGet rd cpu).overloaded = true
    · rw [if_pos hov]
      unfold dl_clear_overload
      rw [if_pos hon]
      refine ⟨?_, ?_, ?_, ?_⟩
      · simp [setRq]; omega
      · show rd.dlo_count - 1 = (countTrue (rd.dlo_mask.set cpu false) : Int)
        have hc := countTrue_set rd.dlo_mask cpu false hmlen
        rw [hbitc, hov] at hc
        simp at hc
        omega
      · intro i hi
        have hi' : i < rd.rqs.length := by simpa [setRq] using hi
        by_cases hic : i = cpu
        · subst hic
          have h1 : rqGet (setRq { rd with
              dlo_mask := rd.dlo_mask.set i false
              dlo_count := rd.dlo_count - 1 } i
              { rqGet rd i with overloaded := false }) i =
              { rqGet rd i with overloaded := false } :=
            getD_set_self _ i _ default hi'
          rw [h1]
          exact rq_ov_ok_of_false _ rfl
            (show ¬ (1 ≤ (rqGet rd i).dl_nr_migratory ∧
              2 ≤ (rqGet rd i).dl_nr_total) by omega)
        · have h1 : rqGet (setRq { rd with
              dlo_mask := rd.dlo_mask.set cpu false
              dlo_count := rd.dlo_count - 1 } cpu
              { rqGet rd cpu with overloaded := false }) i = rqGet rd i :=
            getD_set_ne _ cpu i _ default (fun hc => hic hc.symm)
          rw [h1]
          exact hok i hi' hic
      · intro i hi
        have hi' : i < rd.rqs.length := by simpa [setRq] using hi
        by_cases hic : i = cpu
        · subst hic
          have h1 : rqGet (setRq { rd with
              dlo_mask := rd.dlo_mask.set i false
              dlo_count := rd.dlo_count - 1 } i
              { rqGet rd i with overloaded := false }) i =
              { rqGet rd i with overloaded := false } :=
            getD_set_self _ i _ default hi'
          rw [h1]
          show maskGet (rd.dlo_mask.set i false) i = false
          exact getD_set_self rd.dlo_mask i false false hmlen
        · have h1 : rqGet (setRq { rd with
              dlo_mask := rd.dlo_mask.set cpu false
              dlo_count := rd.dlo_count - 1 } cpu
              { rqGet rd cpu with overloaded := false }) i = rqGet rd i :=
            getD_set_ne _ cpu i _ default (fun hc => hic hc.symm)
          rw [h1]
          show maskGet (rd.dlo_mask.set cpu false) i = (rqGet rd i).overloaded
          rw [show maskGet (rd.dlo_mask.set cpu false) i =
            maskGet rd.dlo_mask i from
            getD_set_ne rd.dlo_mask cpu i false false (fun hc => hic hc.symm)]
          exact hbit i hi'
    · rw [if_neg hov]
      refine ⟨hlen, hcount, ?_, hbit⟩
      intro i hi
      by_cases hic : i = cpu
      · subst hic
        exact rq_ov_ok_of_false _ (by simpa using hov) (by omega)
      · exact hok i hi hic

theorem rqGet_setRq_self (rd : root_domain) (cpu : Nat) (rq : dl_rq_mig)
    (h : cpu < rd.rqs.length) : rqGet (setRq rd cpu rq) cpu = rq := by
  unfold rqGet setRq
  exact getD_set_self rd.rqs cpu rq default h

/-- C7: all three operations that change a runqueue's deadline-task
population — counting a task in (enqueue path), counting it out (dequeue
path) and an affinity change — re-establish the overload invariant on an
online CPU: each runqueue's overloaded flag equals (nr_migratory ≥ 1 ∧
nr_total ≥ 2), the CPU's dlo_mask bit equals the flag, and dlo_count is
the popcount of dlo_mask. -/
theorem dl_overload_invariant (rd : root_domain) (cpu : Nat)
    (dl_se p : sched_dl_entity) (weight : Nat) (on_rq : Bool)
    (hinv : dlo_invariant rd) (hcpu : cpu < rd.rqs.length)
    (hon : (rqGet rd cpu).online = true) :
    dlo_invariant (inc_dl_migration rd cpu dl_se) ∧
    dlo_invariant (dec_dl_migration rd cpu dl_se) ∧
    dlo_invariant (set_cpus_allowed_dl_mig rd cpu p weight on_rq) := by
  refine ⟨?_, ?_, ?_⟩
  · unfold inc_dl_migration
    apply update_dl_migration_inv
    · exact pre_inv_of_invariant rd cpu _ hinv rfl
    · simpa [setRq] using hcpu
    · rw [rqGet_setRq_self rd cpu _ hcpu]
      exact hon
  · unfold dec_dl_migration
    apply update_dl_migration_inv
    · exact pre_inv_of_invariant rd cpu _ hinv rfl
    · simpa [setRq] using hcpu
    · rw [rqGet_setRq_self rd cpu _ hcpu]
      exact hon
  · unfold set_cpus_allowed_dl_mig
    by_cases hc : (on_rq && decide (weight ≠ p.nr_cpus_allowed)) = true
    · rw [if_pos hc]
      apply update_dl_migration_inv
      · exact pre_inv_of_invariant rd cpu _ hinv
          (by split_ifs <;> rfl)
      · simpa [setRq] using hcpu
      · rw [rqGet_setRq_self rd cpu _ hcpu]
        split_ifs <;> exact hon
    · rw [if_neg hc]
      exact hinv

/-- A two-CPU root domain satisfying the invariant: CPU 0 has one
migratable ready deadline task, CPU 1 none; nobody is overloaded. -/
def rdEx : root_domain :=
  ⟨[⟨1, 1, false, true⟩, ⟨0, 0, false, true⟩], [false, false], 0⟩

/-- C7 witness: enqueueing a second (migratable) task on CPU 0 flips it
to overloaded with mask bit and count following; the dequeue and
affinity-change paths likewise preserve the invariant. -/
theorem dl_overload_invariant_witness :
    dlo_invariant (inc_dl_migration rdEx 0 exEnt) ∧
    dlo_invariant (dec_dl_migration rdEx 0 exEnt) ∧
    dlo_invariant (set_cpus_allowed_dl_mig rdEx 0 exEnt 1 true) := by
  exact dl_overload_invariant rdEx 0 exEnt exEnt 1 true (by decide)
    (by decide) (by decide)

end SchedDl
